import Mathlib

/-!
Verification of the Ratetui admission-control backend.

This development gives a shallow embedding, in Lean 4, of the rate-limiting
core of the Ratetui repository:

* `src/backend/src/middleware/rateLimiter.js` — IP validation and extraction,
  client-identifier resolution, and the rate-limiter middleware decision flow;
* `src/backend/src/models/RateLimitRule.js` — the Redis-backed rule store
  (create / get / list / update / delete);
* `src/backend/src/services/ruleService.js` — the service layer on top of the
  model (name-conflict checking, conflict detection, audit logging);
* the weighted two-window sliding-window counter, which in the running system
  lives inside the third-party `rate-limiter-flexible` library and is
  therefore modelled from the specification (§4.4).

Redis state is embedded as an explicit `Store` record with association-list
keyspaces; the JS functions become pure Lean functions from (inputs, store)
to (result, store).  JavaScript truthiness on optional strings is made
explicit via `jsTruthy`.
-/

namespace Ratetui

/-! ### JavaScript string truthiness -/

/-- Truthiness of a nullable JS string: `null`/`undefined` and `""` are falsy. -/
def jsTruthy : Option String → Bool
  | none => false
  | some s => s ≠ ""

/-- JS `a || b` on nullable strings. -/
def jsOr (a b : Option String) : Option String :=
  if jsTruthy a then a else b

/-- JS `a || b || null` on nullable strings, normalising a falsy result to `null`. -/
def jsOrNull (a b : Option String) : Option String :=
  if jsTruthy a then a else if jsTruthy b then b else none

/-! ### Character-level string primitives

`String.splitOn`, `String.trim`, `String.startsWith` and string comparison
in the Lean library do not reduce inside the kernel, so the JS string
operations the code relies on are embedded structurally over `List Char`. -/

/-- JS `s.split(sep)` for a one-character separator, on the character list. -/
def splitChar (sep : Char) : List Char → List (List Char)
  | [] => [[]]
  | c :: rest =>
    match splitChar sep rest with
    | [] => [[c]]
    | g :: gs => if c = sep then [] :: g :: gs else (c :: g) :: gs

/-- JS `s.split(sep)` on strings. -/
def splitStr (s : String) (sep : Char) : List String :=
  (splitChar sep s.toList).map String.mk

/-- JS `s.trim()`: strip whitespace from both ends. -/
def trimChars (l : List Char) : List Char :=
  ((l.dropWhile Char.isWhitespace).reverse.dropWhile Char.isWhitespace).reverse

/-- JS `s.startsWith(pre)`. -/
def strStarts (s pre : String) : Bool :=
  pre.toList.isPrefixOf s.toList

/-- Byte-wise lexicographic `≤` on ASCII strings (the order Redis uses for
equal-score members of a sorted set), as a structurally recursive Boolean. -/
def charListLe : List Char → List Char → Bool
  | [], _ => true
  | _ :: _, [] => false
  | a :: as, b :: bs =>
    if a.toNat < b.toNat then true
    else if b.toNat < a.toNat then false
    else charListLe as bs

/-- `charListLe` lifted to strings. -/
def strLe (s t : String) : Bool :=
  charListLe s.toList t.toList

/-! ### IP validation (`isValidIP`, rateLimiter.js lines 68–81) -/

/-- `parseInt(p, 10)` on an all-digit string: its decimal value. -/
def digitsToNat (s : String) : Nat :=
  s.toList.foldl (fun n c => n * 10 + (c.toNat - 48)) 0

/-- Whether `c` is a hexadecimal digit (`[0-9a-fA-F]`). -/
def isHexChar (c : Char) : Bool :=
  c.isDigit || (97 ≤ c.toNat && c.toNat ≤ 102) || (65 ≤ c.toNat && c.toNat ≤ 70)

/-- The test `/^(\d{1,3}\.){3}\d{1,3}$/.test ip`: exactly four dot-separated
groups of one to three decimal digits. -/
def ipv4Shape (s : String) : Bool :=
  let ps := splitChar '.' s.toList
  ps.length == 4 && ps.all (fun p => 1 ≤ p.length && p.length ≤ 3 && p.all Char.isDigit)

/-- The test `/^([0-9a-fA-F]{0,4}:){2,7}[0-9a-fA-F]{0,4}$/.test ip`: three to
eight colon-separated groups of at most four hex digits. -/
def ipv6Shape (s : String) : Bool :=
  let ps := splitChar ':' s.toList
  3 ≤ ps.length && ps.length ≤ 8 && ps.all (fun p => p.length ≤ 4 && p.all isHexChar)

/-- `isValidIP` from rateLimiter.js: nullable/empty/`"unknown"` are invalid;
an IPv4-shaped string is valid iff every octet parses to at most 255;
otherwise fall back to the simplified IPv6 shape test. -/
def isValidIP : Option String → Bool
  | none => false
  | some ip =>
    if ip = "" || ip = "unknown" then false
    else if ipv4Shape ip then (splitStr ip '.').all (fun p => digitsToNat p ≤ 255)
    else ipv6Shape ip

/-! ### Client IP extraction (`extractClientIP`, rateLimiter.js lines 87–159) -/

/-- The private/loopback/link-local prefix test applied to entries of the
forwarded chain when `NODE_ENV === 'production'` (rateLimiter.js lines 97–107). -/
def isPrivateIP (ip : String) : Bool :=
  strStarts ip "127." || strStarts ip "10." || strStarts ip "192.168." ||
  strStarts ip "172.16." || strStarts ip "172.17." || strStarts ip "172.18." ||
  strStarts ip "172.19." || strStarts ip "172.20." || strStarts ip "172.21." ||
  strStarts ip "172.22." || strStarts ip "172.23." || strStarts ip "172.24." ||
  strStarts ip "172.25." || strStarts ip "172.26." || strStarts ip "172.27." ||
  strStarts ip "172.28." || strStarts ip "172.29." || strStarts ip "172.30." ||
  strStarts ip "172.31." || ip == "::1" ||
  strStarts ip "fc00:" || strStarts ip "fe80:" ||
  strStarts ip "fd00:" || ip == "::"

/-- `forwardedFor.split(',').map(ip => ip.trim())`. -/
def parseForwarded (s : String) : List String :=
  (splitChar ',' s.toList).map (fun l => String.mk (trimChars l))

/-- Acceptance test of one forwarded-chain entry inside the loop of
`extractClientIP`: syntactically valid, and (in production only) not a
private/loopback address. -/
def acceptForwarded (production : Bool) (ip : String) : Bool :=
  isValidIP (some ip) && !(production && isPrivateIP ip)

/-- The request metadata consumed by the rate limiter middleware. -/
structure Request where
  xForwardedFor : Option String := none
  xRealIP : Option String := none
  cfConnectingIP : Option String := none
  xClientIP : Option String := none
  ip : Option String := none
  socketRemoteAddress : Option String := none
  connectionRemoteAddress : Option String := none
  userId : Option String := none
  xUserId : Option String := none
  xApiKey : Option String := none
  method : String := "GET"
  baseUrl : String := ""
  path : String := "/"
deriving Repr

/-- One step of the fallback ladder: return the candidate if it is a valid
IP, otherwise the fallback value. -/
def tryIP (cand : Option String) (fallback : String) : String :=
  match cand with
  | some s => if isValidIP (some s) then s else fallback
  | none => fallback

/-- `socketIP.replace(/^::ffff:/, '')`. -/
def stripMapped (s : String) : String :=
  if strStarts s "::ffff:" then String.mk (s.toList.drop 7) else s

/-- `extractClientIP` from rateLimiter.js: scan the `X-Forwarded-For` chain
(first entry passing `acceptForwarded` wins), then fall back to
`X-Real-IP`, `CF-Connecting-IP`, `X-Client-IP`, `req.ip`, the socket
address with the IPv4-mapped marker stripped, and finally `"unknown"`. -/
def extractClientIP (production : Bool) (req : Request) : String :=
  let socketIP := jsOr req.socketRemoteAddress req.connectionRemoteAddress
  let p6 : String :=
    match socketIP with
    | some s => if jsTruthy (some s) && isValidIP (some (stripMapped s)) then stripMapped s else "unknown"
    | none => "unknown"
  let p5 := tryIP req.ip p6
  let p4 := tryIP req.xClientIP p5
  let p3 := tryIP req.cfConnectingIP p4
  let p2 := tryIP req.xRealIP p3
  match req.xForwardedFor with
  | some ff =>
    if ff = "" then p2
    else
      match (parseForwarded ff).find? (acceptForwarded production) with
      | some ip => ip
      | none => p2
  | none => p2

/-- The selection rule the specification prescribes for a forwarding chain
(spec §4.1), stated from the spec's words for comparison with
`extractClientIP`: "select the right-most value that is not itself a
trusted intermediary". -/
def specRightmostSelect (trusted : String → Bool) (chain : List String) : Option String :=
  chain.reverse.find? (fun ip => !(trusted ip))

/-! ### Client identifier (`getClientIdentifier`, rateLimiter.js lines 164–176) -/

/-- `getClientIdentifier(req, identifierType)`: `user` → `req.user?.id ||
req.headers['x-user-id'] || null`; `apiKey` → `req.headers['x-api-key'] ||
null`; anything else (incl. the default `ip`) → `extractClientIP(req)`. -/
def getClientIdentifier (production : Bool) (req : Request) (identifierType : String) :
    Option String :=
  if identifierType = "user" then jsOrNull req.userId req.xUserId
  else if identifierType = "apiKey" then jsOrNull req.xApiKey none
  else some (extractClientIP production req)

/-! ### Rate limiter middleware (`createRateLimiterMiddleware`, rateLimiter.js lines 203–304) -/

/-- The middleware configuration assembled at lines 204–212 (defaults from
the code; environment-variable fallbacks are resolved into the numbers). -/
structure MwConfig where
  keyPrefix : String := "ratelimit"
  points : Nat := 100
  duration : Nat := 60
  blockDuration : Nat := 0
  identifierType : String := "ip"
  skipFailedRequests : Bool := false
  customKeyGenerator : Option (Request → Option String) := none
  includeEndpoint : Bool := false

/-- Ambient process state read by the middleware: Redis connectivity,
`REDIS_FAILURE_MODE` (defaulting to `"open"`), `NODE_ENV === 'production'`,
and the clock (`Date.now()` in milliseconds). -/
structure Env where
  redisConnected : Bool := true
  failureMode : String := "open"
  production : Bool := false
  nowMs : Nat := 0

/-- Outcome of `rateLimiter.consume(key)` as observed by the middleware:
success carries `remainingPoints` and `msBeforeNext`; a rate-limit rejection
is an error object with `remainingPoints` defined; anything else is a store
error without `remainingPoints`. -/
inductive ConsumeResult where
  | ok (remainingPoints : Int) (msBeforeNext : Nat)
  | limited (msBeforeNext : Nat)
  | storeError
deriving DecidableEq, Repr

/-- The rate-limit headers set by `setRateLimitHeaders` (lines 181–198). -/
structure RateHeaders where
  limit : Nat
  remaining : Int
  reset : Nat
  windowSeconds : Nat
  retryAfter : Option Nat
deriving DecidableEq, Repr

/-- `Math.ceil(ms / 1000)` on a natural number of milliseconds. -/
def ceilSec (ms : Nat) : Nat := (ms + 999) / 1000

/-- `setRateLimitHeaders(res, rateLimiterRes, config)`. -/
def setRateLimitHeaders (nowMs : Nat) (cfg : MwConfig) (rem : Int) (ms : Nat) : RateHeaders :=
  let remaining : Int := max 0 rem
  { limit := cfg.points
    remaining := remaining
    reset := ceilSec nowMs + ceilSec ms
    windowSeconds := cfg.duration
    retryAfter := if remaining = 0 then some (ceilSec ms) else none }

/-- What the middleware does with the request: call `next()` (optionally
after setting rate-limit headers), call `next(createError(code, …))`, or
answer 429 with the given error code and `Retry-After`. -/
inductive Outcome where
  | proceed (headers : Option RateHeaders)
  | failError (code : String)
  | tooMany (code : String) (retryAfter : Nat)
deriving DecidableEq, Repr

/-- Result of one middleware invocation: the outcome, plus the key passed to
`rateLimiter.consume` when the consume call was reached (`none` = no counter
was touched). -/
structure MwResult where
  outcome : Outcome
  consumedKey : Option String
deriving DecidableEq, Repr

/-- The identifier computed at lines 230–232: the custom key generator if
configured, else `getClientIdentifier`. -/
def mwIdentifier (cfg : MwConfig) (env : Env) (req : Request) : Option String :=
  match cfg.customKeyGenerator with
  | some g => g req
  | none => getClientIdentifier env.production req cfg.identifierType

/-- The composite consume key of lines 240–242. -/
def mwKey (cfg : MwConfig) (req : Request) (identifier : String) : String :=
  if cfg.includeEndpoint then identifier ++ ":" ++ req.method ++ ":" ++ req.baseUrl ++ req.path
  else identifier

/-- The middleware body returned by `createRateLimiterMiddleware` (lines
214–304), with the store interaction abstracted as the `consume` oracle:
closed-mode short-circuit when Redis is down, identifier resolution (missing
identifier ⇒ plain `next()`), consume, headers on success, 429 on a
rate-limit rejection, and the failure-mode policy on other errors. -/
def rateLimiterMiddleware (cfg : MwConfig) (env : Env) (req : Request)
    (consume : String → ConsumeResult) : MwResult :=
  if env.redisConnected = false && env.failureMode = "closed" then
    { outcome := .failError "SERVICE_UNAVAILABLE", consumedKey := none }
  else
    let identifier := mwIdentifier cfg env req
    if jsTruthy identifier = false then
      { outcome := .proceed none, consumedKey := none }
    else
      let key := mwKey cfg req (identifier.getD "")
      match consume key with
      | .ok rem ms =>
        { outcome := .proceed (some (setRateLimitHeaders env.nowMs cfg rem ms))
          consumedKey := some key }
      | .limited ms =>
        { outcome := .tooMany "RATE_LIMIT_EXCEEDED" (ceilSec ms), consumedKey := some key }
      | .storeError =>
        if env.failureMode = "open" then { outcome := .proceed none, consumedKey := some key }
        else { outcome := .failError "SERVICE_UNAVAILABLE", consumedKey := some key }

/-! ### Sliding-window counter

Modelled from the spec: the weighted two-window approximation of §4.4.  The
running system delegates this algorithm to the third-party
`rate-limiter-flexible` library, which is not part of the repository's
sources; the definitions below follow the spec's contract verbatim. -/

/-- Modelled from the spec: per-key counter state — the count of the
immediately preceding fixed window and of the current one (an absent key
reads as zero). -/
structure WinState where
  prevCount : Nat
  currCount : Nat
deriving DecidableEq, Repr

/-- Modelled from the spec: one `check(key, capacity, windowSeconds)` call.
Increment the current-window counter, compute
`estimate = previousWindowCount * overlapFraction + currentWindowCount` with
`overlapFraction = (windowSeconds - elapsed) / windowSeconds`, and admit when
`estimate <= capacity`; the increment is kept even on denial. -/
def slidingWindowConsume (capacity windowSeconds elapsed : Nat) (s : WinState) :
    Bool × WinState :=
  let s' : WinState := { s with currCount := s.currCount + 1 }
  let overlapFraction : ℚ := ((windowSeconds : ℚ) - (elapsed : ℚ)) / (windowSeconds : ℚ)
  let estimate : ℚ := (s.prevCount : ℚ) * overlapFraction + (s'.currCount : ℚ)
  (decide (estimate ≤ (capacity : ℚ)), s')

/-- Modelled from the spec: the counter state after `n` strictly sequential
calls within one window for a single key, starting from an absent key
(previous window empty), with `elapsed i` the offset of call `i` into the
window. -/
def runCalls (capacity windowSeconds : Nat) (elapsed : Nat → Nat) : Nat → WinState
  | 0 => ⟨0, 0⟩
  | n + 1 =>
    (slidingWindowConsume capacity windowSeconds (elapsed n)
      (runCalls capacity windowSeconds elapsed n)).2

/-- Modelled from the spec: the admission verdict of the `(n+1)`-th
sequential call in the run of `runCalls`. -/
def callResult (capacity windowSeconds : Nat) (elapsed : Nat → Nat) (n : Nat) : Bool :=
  (slidingWindowConsume capacity windowSeconds (elapsed n)
    (runCalls capacity windowSeconds elapsed n)).1

/-! ### Redis keyspace (association lists)

`RateLimitRule.js` stores each rule under `rl:rule:{id}` (a hash), the name
lookup under `rl:rule:name:{name}`, membership in the set `rl:rules`, and a
priority score in the sorted set `rl:rules:priority`.  Because the prefixes
are fixed, the keyspaces are embedded as separate association lists keyed by
the id (resp. name). -/

/-- Redis `SET`: bind `k` to `v`, replacing an existing binding in place. -/
def setKey {α : Type} : List (String × α) → String → α → List (String × α)
  | [], k, v => [(k, v)]
  | (k', v') :: rest, k, v =>
    if k' = k then (k, v) :: rest else (k', v') :: setKey rest k v

/-- Redis `DEL`: remove every binding of `k`. -/
def delKey {α : Type} : List (String × α) → String → List (String × α)
  | [], _ => []
  | (k', v') :: rest, k =>
    if k' = k then delKey rest k else (k', v') :: delKey rest k

/-- Redis `GET`: the value bound to `k`, if any. -/
def lookupKey {α : Type} : List (String × α) → String → Option α
  | [], _ => none
  | (k', v) :: rest, k => if k' = k then some v else lookupKey rest k

/-- Redis `SADD`: add `x` to a set (kept insertion-ordered). -/
def saddList (l : List String) (x : String) : List String :=
  if x ∈ l then l else l ++ [x]

/-! ### Rule data (`RateLimitRule.js`) -/

/-- A rule target: `{type, pattern}` with type one of
`endpoint | ip | user | apikey` and an optional pattern string. -/
structure Target where
  type : String
  pattern : Option String
deriving DecidableEq, Repr

/-- A rule limit payload, `{requests, window}` in the code (the spec calls
these `capacity` and `windowSeconds`); stored verbatim by `createRule`. -/
structure Limit where
  requests : Int
  window : String
deriving DecidableEq, Repr

/-- The rule hash stored under `rl:rule:{id}` (JSON-valued fields kept
structured, since storage round-trips them unchanged). -/
structure StoredRule where
  id : String
  name : String
  target : Target
  limit : Limit
  action : String
  priority : Int
  enabled : Bool
  description : String
  createdAt : String
  updatedAt : String
deriving DecidableEq, Repr

/-- The whole Redis state visible to the rule model and service, plus the
connectivity flag consulted via `isRedisConnected()`. -/
structure Store where
  connected : Bool := true
  ruleHash : List (String × StoredRule) := []
  nameIndex : List (String × String) := []
  rulesSet : List String := []
  prioritySet : List (String × Int) := []
  auditLog : List String := []
deriving DecidableEq, Repr

/-- The empty, connected store. -/
def store0 : Store := {}

/-- The `ruleData` argument of `RateLimitRule.createRule`, with the
destructuring defaults of lines 32–40. -/
structure RuleInput where
  name : Option String := none
  target : Option Target := none
  limit : Option Limit := none
  action : String := "reject"
  priority : Int := 100
  enabled : Bool := true
  description : String := ""

/-- The non-deterministic inputs of `createRule`: the generated
`rule_{Date.now()}_{random}` id and the ISO timestamp. -/
structure Gen where
  ruleId : String
  nowIso : String

/-- `RateLimitRule.createRule`: require a connection and the three mandatory
fields, reject an already-bound name, then write the rule hash, the name
index, the `rl:rules` membership and the priority score. -/
def createRule (gen : Gen) (d : RuleInput) (s : Store) : Except String (StoredRule × Store) :=
  if s.connected = false then .error "Redis connection required to create rule"
  else
    match d.name, d.target, d.limit with
    | some name, some target, some limit =>
      if name = "" then .error "Name, target, and limit are required"
      else if jsTruthy (lookupKey s.nameIndex name) then .error "Rule name already exists"
      else
        let rule : StoredRule :=
          { id := gen.ruleId, name := name, target := target, limit := limit
            action := d.action, priority := d.priority, enabled := d.enabled
            description := d.description, createdAt := gen.nowIso, updatedAt := gen.nowIso }
        .ok (rule,
          { s with
            ruleHash := setKey s.ruleHash gen.ruleId rule
            nameIndex := setKey s.nameIndex name gen.ruleId
            rulesSet := saddList s.rulesSet gen.ruleId
            prioritySet := setKey s.prioritySet gen.ruleId d.priority })
    | _, _, _ => .error "Name, target, and limit are required"

/-- `RateLimitRule.getRuleById`: `null` when disconnected or the hash is
absent. -/
def getRuleById (s : Store) (ruleId : String) : Option StoredRule :=
  if s.connected = false then none else lookupKey s.ruleHash ruleId

/-- `RateLimitRule.getRuleByName`: resolve through the name index. -/
def getRuleByName (s : Store) (name : String) : Option StoredRule :=
  if s.connected = false then none
  else
    match lookupKey s.nameIndex name with
    | none => none
    | some rid => if rid = "" then none else getRuleById s rid

/-- Options of `RateLimitRule.getAllRules`. -/
structure GetAllOptions where
  enabledOnly : Bool := false
  sortByPriority : Bool := false

/-- The order in which `ZREVRANGE key 0 -1` lists members: score descending,
equal scores by member string descending. -/
def zrevLe (a b : String × Int) : Prop :=
  b.2 < a.2 ∨ (a.2 = b.2 ∧ strLe b.1 a.1 = true)

theorem charListLe_total : ∀ a b : List Char, charListLe a b = true ∨ charListLe b a = true := by
  intro a
  induction a with
  | nil => intro b; exact Or.inl rfl
  | cons c cs ih =>
    intro b
    match b with
    | [] => exact Or.inr rfl
    | d :: ds =>
      rcases Nat.lt_trichotomy c.toNat d.toNat with h | h | h
      · left
        simp [charListLe, h]
      · rcases ih ds with h' | h'
        · left
          simp [charListLe, h, h']
        · right
          simp [charListLe, h.symm, h']
      · right
        simp [charListLe, h]

theorem charListLe_trans : ∀ a b c : List Char,
    charListLe a b = true → charListLe b c = true → charListLe a c = true
  | [], _, _, _, _ => rfl
  | _ :: _, [], _, hab, _ => by simp [charListLe] at hab
  | _ :: _, _ :: _, [], _, hbc => by simp [charListLe] at hbc
  | x :: xs, y :: ys, z :: zs, hab, hbc => by
    simp only [charListLe] at hab hbc ⊢
    rcases Nat.lt_trichotomy x.toNat y.toNat with h1 | h1 | h1 <;>
      rcases Nat.lt_trichotomy y.toNat z.toNat with h2 | h2 | h2
    · rw [if_pos (by omega)]
    · rw [if_pos (by omega)]
    · rw [if_neg (by omega), if_pos (by omega)] at hbc
      simp at hbc
    · rw [if_pos (by omega)]
    · rw [if_neg (by omega), if_neg (by omega)] at hab hbc ⊢
      exact charListLe_trans xs ys zs hab hbc
    · rw [if_neg (by omega), if_pos (by omega)] at hbc
      simp at hbc
    · rw [if_neg (by omega), if_pos (by omega)] at hab
      simp at hab
    · rw [if_neg (by omega), if_pos (by omega)] at hab
      simp at hab
    · rw [if_neg (by omega), if_pos (by omega)] at hab
      simp at hab

instance : DecidableRel zrevLe := fun a b => by
  unfold zrevLe
  exact inferInstance

instance : IsTotal (String × Int) zrevLe where
  total a b := by
    unfold zrevLe
    rcases lt_trichotomy a.2 b.2 with h | h | h
    · exact Or.inr (Or.inl h)
    · rcases charListLe_total a.1.toList b.1.toList with hs | hs
      · exact Or.inr (Or.inr ⟨h.symm, hs⟩)
      · exact Or.inl (Or.inr ⟨h, hs⟩)
    · exact Or.inl (Or.inl h)

instance : IsTrans (String × Int) zrevLe where
  trans a b c hab hbc := by
    unfold zrevLe at *
    rcases hab with h1 | ⟨h1, h1'⟩
    · rcases hbc with h2 | ⟨h2, _⟩
      · exact Or.inl (h2.trans h1)
      · exact Or.inl (h2 ▸ h1)
    · rcases hbc with h2 | ⟨h2, h2'⟩
      · exact Or.inl (h1 ▸ h2)
      · exact Or.inr ⟨h1.trans h2, charListLe_trans _ _ _ h2' h1'⟩

/-- `ZREVRANGE rl:rules:priority 0 -1`: the member ids sorted by score
descending (ties by member descending). -/
def zrevAll (l : List (String × Int)) : List String :=
  (l.insertionSort zrevLe).map (·.1)

/-- `RateLimitRule.getAllRules`: pick the id list (priority-sorted or raw
set), resolve each id through `getRuleById`, drop the misses, and filter to
enabled rules when requested. -/
def getAllRules (s : Store) (opts : GetAllOptions) : List StoredRule :=
  if s.connected = false then []
  else
    let ruleIds := if opts.sortByPriority then zrevAll s.prioritySet else s.rulesSet
    let rules := ruleIds.filterMap (fun rid => getRuleById s rid)
    if opts.enabledOnly then rules.filter (·.enabled) else rules

/-- The `updates` argument of `RateLimitRule.updateRule`: each field is
`undefined` or a new value. -/
structure RuleUpdates where
  target : Option Target := none
  limit : Option Limit := none
  action : Option String := none
  description : Option String := none
  enabled : Option Bool := none
  priority : Option Int := none

/-- `RateLimitRule.updateRule`: require the rule to exist, update the
priority score when a priority is supplied, then overwrite the changed hash
fields (`updatedAt` always changes) and return the re-read rule. -/
def updateRule (nowIso : String) (ruleId : String) (u : RuleUpdates) (s : Store) :
    Except String (Option StoredRule × Store) :=
  if s.connected = false then .error "Redis connection required to update rule"
  else
    match getRuleById s ruleId with
    | none => .error "Rule not found"
    | some rule =>
      let s1 :=
        match u.priority with
        | some p => { s with prioritySet := setKey s.prioritySet ruleId p }
        | none => s
      let rule' : StoredRule :=
        { rule with
          target := u.target.getD rule.target
          limit := u.limit.getD rule.limit
          action := u.action.getD rule.action
          description := u.description.getD rule.description
          enabled := u.enabled.getD rule.enabled
          priority := u.priority.getD rule.priority
          updatedAt := nowIso }
      let s2 := { s1 with ruleHash := setKey s1.ruleHash ruleId rule' }
      .ok (getRuleById s2 ruleId, s2)

/-- `RateLimitRule.deleteRule`: `false` (and no writes) when the rule is
absent; otherwise remove the name index, the hash, the set membership and
the priority score. -/
def deleteRule (ruleId : String) (s : Store) : Except String (Bool × Store) :=
  if s.connected = false then .error "Redis connection required to delete rule"
  else
    match getRuleById s ruleId with
    | none => .ok (false, s)
    | some rule =>
      .ok (true,
        { s with
          nameIndex := delKey s.nameIndex rule.name
          ruleHash := delKey s.ruleHash ruleId
          rulesSet := s.rulesSet.filter (fun x => x ≠ ruleId)
          prioritySet := delKey s.prioritySet ruleId })

/-! ### Service layer (`ruleService.js`) -/

/-- The authenticated administrative caller. -/
structure Actor where
  id : String
  email : String

/-- `logAudit`: prepend an entry to the daily audit list (a no-op warning
when disconnected; failures are swallowed). -/
def logAudit (entry : String) (s : Store) : Store :=
  if s.connected = false then s else { s with auditLog := entry :: s.auditLog }

/-- `ruleService.createRule`: presence check, name-conflict check through
`getRuleByName`, model-layer create, then audit. -/
def serviceCreateRule (gen : Gen) (d : RuleInput) (actor : Actor) (s : Store) :
    Except String (StoredRule × Store) :=
  if jsTruthy d.name = false || d.target.isNone || d.limit.isNone then
    .error "Name, target, and limit are required"
  else
    match getRuleByName s (d.name.getD "") with
    | some _ => .error ("Rule with name '" ++ d.name.getD "" ++ "' already exists")
    | none =>
      match createRule gen d s with
      | .error e => .error e
      | .ok (r, s1) => .ok (r, logAudit ("create:" ++ r.id ++ ":" ++ actor.id) s1)

/-- `ruleService.updateRule`: require existence, model-layer update, audit. -/
def serviceUpdateRule (nowIso : String) (ruleId : String) (u : RuleUpdates) (actor : Actor)
    (s : Store) : Except String (Option StoredRule × Store) :=
  match getRuleById s ruleId with
  | none => .error "Rule not found"
  | some _ =>
    match updateRule nowIso ruleId u s with
    | .error e => .error e
    | .ok (r, s1) => .ok (r, logAudit ("update:" ++ ruleId ++ ":" ++ actor.id) s1)

/-- `ruleService.getActiveRules`: the list the rate limiter consumes —
enabled rules, priority-sorted. -/
def getActiveRules (s : Store) : List StoredRule :=
  getAllRules s { enabledOnly := true, sortByPriority := true }

/-- One entry of the structured conflict list built by
`ruleService.checkConflicts`. -/
structure Conflict where
  ruleId : String
  ruleName : String
  reason : String
deriving DecidableEq, Repr

/-- `ruleService.checkConflicts`: over all enabled rules, report each rule
whose target has the same type and the same pattern as the candidate. -/
def checkConflicts (s : Store) (target : Target) : List Conflict :=
  ((getAllRules s { enabledOnly := true }).filter
      (fun ex => ex.target.type = target.type && ex.target.pattern = target.pattern)).map
    (fun ex => { ruleId := ex.id, ruleName := ex.name, reason := "Identical target pattern" })

/-! ## Helper lemmas -/

theorem lookupKey_setKey_self {α : Type} (l : List (String × α)) (k : String) (v : α) :
    lookupKey (setKey l k v) k = some v := by
  induction l with
  | nil => simp [setKey, lookupKey]
  | cons hd tl ih =>
    obtain ⟨k', v'⟩ := hd
    by_cases h : k' = k
    · simp [setKey, h, lookupKey]
    · simp [setKey, h, lookupKey, ih]

theorem lookupKey_delKey_self {α : Type} (l : List (String × α)) (k : String) :
    lookupKey (delKey l k) k = none := by
  induction l with
  | nil => simp [delKey, lookupKey]
  | cons hd tl ih =>
    obtain ⟨k', v'⟩ := hd
    by_cases h : k' = k
    · simp [delKey, h, ih]
    · simp [delKey, h, lookupKey, ih]

/-! ## C10 — `isValidIP` characterization -/

/-- C10: `isValidIP` returns `false` for `null`, the empty string and
`"unknown"`; on a string of exactly four dot-separated 1–3-digit decimal
octets it returns `true` exactly when every octet's numeric value is at most
255 (so `false` whenever some octet exceeds 255). -/
theorem c10_isValidIP_characterization :
    isValidIP none = false ∧ isValidIP (some "") = false ∧
    isValidIP (some "unknown") = false ∧
    ∀ s : String, ipv4Shape s = true →
      (isValidIP (some s) = true ↔ ∀ p ∈ splitStr s '.', digitsToNat p ≤ 255) := by
  refine ⟨rfl, rfl, rfl, ?_⟩
  intro s hshape
  have h1 : s ≠ "" := by
    rintro rfl
    exact absurd hshape (by decide)
  have h2 : s ≠ "unknown" := by
    rintro rfl
    exact absurd hshape (by decide)
  simp [isValidIP, h1, h2, hshape, List.all_eq_true]

/-- Witness for C10: a compliant address is accepted and an address with the
octet 300 is rejected. -/
theorem c10_witness :
    (isValidIP (some "203.0.113.7") = true) ∧ (isValidIP (some "10.0.0.300") = false) := by
  constructor
  · exact (c10_isValidIP_characterization.2.2.2 "203.0.113.7" (by decide)).mpr (by decide)
  · have h := c10_isValidIP_characterization.2.2.2 "10.0.0.300" (by decide)
    refine Bool.eq_false_iff.mpr (fun ht => ?_)
    have h300 := h.mp ht "300" (by decide)
    exact absurd h300 (by decide)

/-! ## C1 — saturation of the sliding-window counter (spec-modelled) -/

theorem runCalls_eq (c w : Nat) (e : Nat → Nat) : ∀ n, runCalls c w e n = ⟨0, n⟩
  | 0 => rfl
  | n + 1 => by
    simp [runCalls, runCalls_eq c w e n, slidingWindowConsume]

theorem callResult_eq (c w : Nat) (e : Nat → Nat) (n : Nat) :
    callResult c w e n = decide (n + 1 ≤ c) := by
  simp only [callResult, runCalls_eq, slidingWindowConsume]
  rw [decide_eq_decide]
  push_cast
  rw [zero_mul, zero_add]
  exact_mod_cast Iff.rfl

/-- C1: for capacity `N > 0` and a fixed identity key, `N+1` strictly
sequential calls within one window admit each of the first `N` and deny the
`(N+1)`-th; the increment applied by the denied call is kept (final current
count `N+1`).  Spec-modelled: the counting algorithm lives in the
third-party `rate-limiter-flexible` library, outside the repository's
sources, so it is embedded from §4.4 of the spec. -/
theorem c1_saturation (N w : Nat) (hN : 0 < N) (hw : 0 < w) (e : Nat → Nat)
    (he : ∀ i, e i < w) :
    (∀ i, i < N → callResult N w e i = true) ∧
    callResult N w e N = false ∧
    (runCalls N w e (N + 1)).currCount = N + 1 := by
  refine ⟨fun i hi => ?_, ?_, ?_⟩
  · rw [callResult_eq]
    exact decide_eq_true_iff.mpr (by omega)
  · rw [callResult_eq]
    simp
  · rw [runCalls_eq]

/-- Witness for C1 at `N = 2`, `w = 60`, all calls at the window start. -/
theorem c1_witness :
    (∀ i, i < 2 → callResult 2 60 (fun _ => 0) i = true) ∧
    callResult 2 60 (fun _ => 0) 2 = false ∧
    (runCalls 2 60 (fun _ => 0) 3).currCount = 3 :=
  c1_saturation 2 60 (by decide) (by decide) (fun _ => 0) (fun _ => by show (0:Nat) < 60; decide)

/-! ## C8 — missing identifier bypasses rate limiting -/

/-- C8: when no custom key generator is configured and `getClientIdentifier`
resolves to `null` (e.g. `identifierType = "user"` with no authenticated
user and no `x-user-id` header), the middleware calls `next()` without
consuming any counter and without setting rate-limit headers, provided the
request is not already short-circuited by the closed failure mode. -/
theorem c8_no_identifier_no_limiting (cfg : MwConfig) (env : Env) (req : Request)
    (consume : String → ConsumeResult)
    (hck : cfg.customKeyGenerator = none)
    (hid : getClientIdentifier env.production req cfg.identifierType = none)
    (hmode : env.redisConnected = true ∨ env.failureMode ≠ "closed") :
    rateLimiterMiddleware cfg env req consume =
      { outcome := .proceed none, consumedKey := none } := by
  have hident : mwIdentifier cfg env req = none := by
    simp [mwIdentifier, hck, hid]
  rcases hmode with h | h <;>
    simp [rateLimiterMiddleware, h, hident, jsTruthy]

/-- Witness for C8: `identifierType = "user"`, no user id anywhere. -/
theorem c8_witness :
    rateLimiterMiddleware { identifierType := "user" } {} {} (fun _ => .ok 5 100) =
      { outcome := .proceed none, consumedKey := none } :=
  c8_no_identifier_no_limiting { identifierType := "user" } {} {} (fun _ => .ok 5 100)
    rfl (by decide) (Or.inl rfl)

/-! ## C3 — failure-mode policy when the store is unreachable -/

/-- C3 (counterexample to the claim as stated): with Redis unreachable and
policy Open, the middleware does not short-circuit to `allowed=true`; rate
limiting proceeds against the fallback limiter, and a rate-limit rejection
still denies the request with a 429. -/
theorem c3_counterexample :
    rateLimiterMiddleware {} { redisConnected := false, failureMode := "open" }
        { ip := some "1.2.3.4" } (fun _ => .limited 1000) =
      { outcome := .tooMany "RATE_LIMIT_EXCEEDED" 1, consumedKey := some "1.2.3.4" } := by
  decide

/-- C3 (amended): with Redis known unreachable, policy Closed denies every
request up front with a `SERVICE_UNAVAILABLE` error — an outcome distinct
from the `RATE_LIMIT_EXCEEDED` 429 denial — touching no counter; policy
Open does not short-circuit (there is no degraded flag): processing
continues and the decision follows the consume result — success proceeds
with headers, a rate-limit rejection denies with 429, and only a
non-rate-limit limiter error is allowed through. -/
theorem c3_failure_modes :
    (∀ (cfg : MwConfig) (env : Env) (req : Request) (consume : String → ConsumeResult),
      env.redisConnected = false → env.failureMode = "closed" →
      rateLimiterMiddleware cfg env req consume =
        { outcome := .failError "SERVICE_UNAVAILABLE", consumedKey := none } ∧
      ∀ n, (Outcome.failError "SERVICE_UNAVAILABLE") ≠ Outcome.tooMany "RATE_LIMIT_EXCEEDED" n) ∧
    (∀ (cfg : MwConfig) (env : Env) (req : Request) (consume : String → ConsumeResult)
        (idv : String),
      env.redisConnected = false → env.failureMode = "open" →
      mwIdentifier cfg env req = some idv → idv ≠ "" →
      (∀ ms, consume (mwKey cfg req idv) = .limited ms →
        rateLimiterMiddleware cfg env req consume =
          { outcome := .tooMany "RATE_LIMIT_EXCEEDED" (ceilSec ms)
            consumedKey := some (mwKey cfg req idv) }) ∧
      (∀ rem ms, consume (mwKey cfg req idv) = .ok rem ms →
        rateLimiterMiddleware cfg env req consume =
          { outcome := .proceed (some (setRateLimitHeaders env.nowMs cfg rem ms))
            consumedKey := some (mwKey cfg req idv) }) ∧
      (consume (mwKey cfg req idv) = .storeError →
        rateLimiterMiddleware cfg env req consume =
          { outcome := .proceed none, consumedKey := some (mwKey cfg req idv) })) := by
  constructor
  · intro cfg env req consume hconn hmode
    refine ⟨?_, fun n h => by cases h⟩
    simp [rateLimiterMiddleware, hconn, hmode]
  · intro cfg env req consume idv hconn hmode hident hne
    refine ⟨fun ms hcons => ?_, fun rem ms hcons => ?_, fun hcons => ?_⟩ <;>
      simp [rateLimiterMiddleware, hconn, hmode, hident, jsTruthy, hne, hcons]

/-- Witness for C3: both failure modes exercised at concrete inputs. -/
theorem c3_witness :
    (rateLimiterMiddleware {} { redisConnected := false, failureMode := "closed" }
        { ip := some "1.2.3.4" } (fun _ => .ok 5 100) =
      { outcome := .failError "SERVICE_UNAVAILABLE", consumedKey := none }) ∧
    (rateLimiterMiddleware {} { redisConnected := false, failureMode := "open" }
        { ip := some "1.2.3.4" } (fun _ => .storeError) =
      { outcome := .proceed none, consumedKey := some "1.2.3.4" }) := by
  constructor
  · exact (c3_failure_modes.1 {} { redisConnected := false, failureMode := "closed" }
      { ip := some "1.2.3.4" } (fun _ => .ok 5 100) rfl rfl).1
  · exact (c3_failure_modes.2 {} { redisConnected := false, failureMode := "open" }
      { ip := some "1.2.3.4" } (fun _ => .storeError) "1.2.3.4" rfl rfl (by decide)
      (by decide)).2.2 rfl

/-! ## C2 — forwarded-chain selection -/

/-- C2 (counterexample to the claim as stated): for the chain
`"1.2.3.4, 5.6.7.8"` (no entry private, production mode) the code returns
the left-most entry `"1.2.3.4"`, while the spec's rule — right-most value
that is not a trusted intermediary, with the code's only trust notion being
the private-range heuristic — selects `"5.6.7.8"`. -/
theorem c2_counterexample :
    extractClientIP true { xForwardedFor := some "1.2.3.4, 5.6.7.8" } = "1.2.3.4" ∧
    specRightmostSelect isPrivateIP (parseForwarded "1.2.3.4, 5.6.7.8") = some "5.6.7.8" ∧
    ("1.2.3.4" : String) ≠ "5.6.7.8" := by
  refine ⟨by decide, by decide, by decide⟩

/-- C2 (amended): `extractClientIP` scans the forwarded chain left to right
and returns the first entry that is syntactically valid and, in production
only, outside the private/loopback ranges — the left-most acceptable entry,
every earlier entry being unacceptable. -/
theorem c2_leftmost_acceptable (production : Bool) (req : Request) (ff ip : String)
    (hff : req.xForwardedFor = some ff) (hne : ff ≠ "")
    (hfind : (parseForwarded ff).find? (acceptForwarded production) = some ip) :
    extractClientIP production req = ip ∧ acceptForwarded production ip = true ∧
    ∃ l1 l2, parseForwarded ff = l1 ++ ip :: l2 ∧
      ∀ x ∈ l1, acceptForwarded production x = false := by
  obtain ⟨hip, l1, l2, heq, hprev⟩ := List.find?_eq_some.mp hfind
  refine ⟨?_, hip, l1, l2, heq, fun x hx => by simpa using hprev x hx⟩
  simp [extractClientIP, hff, hne, hfind]

/-- Witness for C2 (amended) at the production chain of the counterexample. -/
theorem c2_witness :
    extractClientIP true { xForwardedFor := some "192.168.1.1, 203.0.113.1, 10.0.0.1" }
      = "203.0.113.1" ∧
    acceptForwarded true "203.0.113.1" = true ∧
    ∃ l1 l2, parseForwarded "192.168.1.1, 203.0.113.1, 10.0.0.1" =
        l1 ++ "203.0.113.1" :: l2 ∧
      ∀ x ∈ l1, acceptForwarded true x = false :=
  c2_leftmost_acceptable true { xForwardedFor := some "192.168.1.1, 203.0.113.1, 10.0.0.1" }
    "192.168.1.1, 203.0.113.1, 10.0.0.1" "203.0.113.1" rfl (by decide) (by decide)

/-! ## Concrete fixtures

Small stores reached by running `createRule` from the empty store, used by
the concrete counterexamples and witnesses below. -/

def genA : Gen := ⟨"rule_a", "2026-01-01T00:00:00Z"⟩

def genB : Gen := ⟨"rule_b", "2026-01-01T00:00:01Z"⟩

def inputA : RuleInput :=
  { name := some "api-limit", target := some ⟨"endpoint", some "/api"⟩
    limit := some ⟨1, "1m"⟩, priority := 1 }

def inputB : RuleInput :=
  { name := some "bulk-limit", target := some ⟨"endpoint", some "/api"⟩
    limit := some ⟨1000, "1m"⟩, priority := 2 }

def storeA : Store :=
  match createRule genA inputA store0 with
  | .ok (_, s) => s
  | .error _ => store0

def storeAB : Store :=
  match createRule genB inputB storeA with
  | .ok (_, s) => s
  | .error _ => storeA

/-! ## C9 — deleting a missing rule id is a no-op -/

/-- C9: for a rule id absent from the store, `deleteRule` answers `false`
and returns the store unchanged — no rule hash, name index, set membership
or priority entry is touched. -/
theorem c9_delete_missing_frame (s : Store) (ruleId : String)
    (hconn : s.connected = true) (habs : lookupKey s.ruleHash ruleId = none) :
    deleteRule ruleId s = .ok (false, s) := by
  simp [deleteRule, getRuleById, hconn, habs]

/-- Witness for C9 on the one-rule store. -/
theorem c9_witness : deleteRule "rule_missing" storeA = .ok (false, storeA) :=
  c9_delete_missing_frame storeA "rule_missing" (by decide) (by decide)

/-! ## C5 — rule-name uniqueness -/

/-- Inversion of a successful `createRule`: the store was connected, the
mandatory fields were present, the name was free and non-empty, and the
resulting store holds the new rule under the generated id with the name
freshly indexed. -/
theorem createRule_ok_inv {gen : Gen} {d : RuleInput} {s : Store} {r : StoredRule} {s1 : Store}
    (h : createRule gen d s = .ok (r, s1)) :
    s.connected = true ∧ d.name = some r.name ∧ r.name ≠ "" ∧ r.id = gen.ruleId ∧
    s1.connected = true ∧ lookupKey s1.ruleHash r.id = some r ∧
    s1.nameIndex = setKey s.nameIndex r.name gen.ruleId := by
  unfold createRule at h
  by_cases hc : s.connected = false
  · rw [if_pos hc] at h
    cases h
  · rw [if_neg hc] at h
    have hc' : s.connected = true := by
      cases hcv : s.connected
      · exact absurd hcv hc
      · rfl
    cases hn : d.name with
    | none => rw [hn] at h; cases h
    | some n =>
      cases ht : d.target with
      | none => rw [hn, ht] at h; cases h
      | some t =>
        cases hl : d.limit with
        | none => rw [hn, ht, hl] at h; cases h
        | some l =>
          rw [hn, ht, hl] at h
          dsimp only at h
          by_cases hemp : n = ""
          · rw [if_pos hemp] at h; cases h
          · rw [if_neg hemp] at h
            by_cases hdup : jsTruthy (lookupKey s.nameIndex n) = true
            · rw [if_pos hdup] at h; cases h
            · rw [if_neg hdup] at h
              rw [Except.ok.injEq, Prod.mk.injEq] at h
              obtain ⟨hr, hs1⟩ := h
              subst hr
              subst hs1
              exact ⟨hc', rfl, hemp, rfl, hc', lookupKey_setKey_self _ _ _, rfl⟩

/-- `createRule` succeeds whenever the store is connected, the mandatory
fields are present, and the name is not yet bound. -/
theorem createRule_ok_of_free (gen : Gen) (d : RuleInput) (s : Store) (n : String)
    (t : Target) (l : Limit) (hconn : s.connected = true) (hn : d.name = some n)
    (hne : n ≠ "") (ht : d.target = some t) (hl : d.limit = some l)
    (hfree : jsTruthy (lookupKey s.nameIndex n) = false) :
    ∃ r2 s3, createRule gen d s = .ok (r2, s3) := by
  unfold createRule
  rw [if_neg (by rw [hconn]; simp), hn, ht, hl]
  dsimp only
  rw [if_neg hne, if_neg (by rw [hfree]; simp)]
  exact ⟨_, _, rfl⟩

/-- C5: creating a rule whose name is already bound in the name index fails
with the name-conflict error (the model throws before any write, so nothing
is stored); and after a successful create, deleting that rule frees the
name so that a new rule with the same name can be created. -/
theorem c5_name_uniqueness :
    (∀ (gen : Gen) (d : RuleInput) (s : Store) (n : String) (t : Target) (l : Limit)
        (oldId : String),
      s.connected = true → d.name = some n → n ≠ "" → d.target = some t → d.limit = some l →
      lookupKey s.nameIndex n = some oldId → oldId ≠ "" →
      createRule gen d s = .error "Rule name already exists") ∧
    (∀ (gen : Gen) (d : RuleInput) (s : Store) (r : StoredRule) (s1 : Store),
      createRule gen d s = .ok (r, s1) →
      ∃ s2 : Store, deleteRule r.id s1 = .ok (true, s2) ∧
        ∀ (gen' : Gen) (d' : RuleInput) (t' : Target) (l' : Limit),
          d'.name = d.name → d'.target = some t' → d'.limit = some l' →
          ∃ r2 s3, createRule gen' d' s2 = .ok (r2, s3)) := by
  constructor
  · intro gen d s n t l oldId hconn hn hne ht hl hlook hold
    unfold createRule
    rw [if_neg (by rw [hconn]; simp), hn, ht, hl]
    dsimp only
    rw [if_neg hne,
      if_pos (show jsTruthy (lookupKey s.nameIndex n) = true by
        rw [hlook]; simpa [jsTruthy] using hold)]
  · intro gen d s r s1 h
    obtain ⟨hconn, hname, hnne, hid, hconn1, hhash, hidx⟩ := createRule_ok_inv h
    have hfalse1 : ¬ (s1.connected = false) := by
      rw [hconn1]
      simp
    have hget : getRuleById s1 r.id = some r := by
      simp [getRuleById, hfalse1, hhash]
    refine ⟨{ s1 with
        nameIndex := delKey s1.nameIndex r.name
        ruleHash := delKey s1.ruleHash r.id
        rulesSet := s1.rulesSet.filter (fun x => x ≠ r.id)
        prioritySet := delKey s1.prioritySet r.id }, ?_, ?_⟩
    · simp [deleteRule, hfalse1, hget]
    · intro gen' d' t' l' hn' ht' hl'
      refine createRule_ok_of_free gen' d' _ r.name t' l' hconn1 (hn'.trans hname) hnne ht' hl' ?_
      show jsTruthy (lookupKey (delKey s1.nameIndex r.name) r.name) = false
      rw [lookupKey_delKey_self]
      rfl

/-- Witness for C5: the duplicate create fails on the one-rule store, and
delete-then-recreate succeeds from the successful create of `inputA`. -/
theorem c5_witness :
    createRule genB inputA storeA = .error "Rule name already exists" ∧
    ∃ s2 : Store, deleteRule "rule_a" storeA = .ok (true, s2) ∧
      ∃ r2 s3, createRule genB inputA s2 = .ok (r2, s3) := by
  constructor
  · exact c5_name_uniqueness.1 genB inputA storeA "api-limit" ⟨"endpoint", some "/api"⟩
      ⟨1, "1m"⟩ "rule_a" (by decide) rfl (by decide) rfl rfl (by decide) (by decide)
  · have h : createRule genA inputA store0 =
        .ok (⟨"rule_a", "api-limit", ⟨"endpoint", some "/api"⟩, ⟨1, "1m"⟩, "reject", 1, true,
          "", "2026-01-01T00:00:00Z", "2026-01-01T00:00:00Z"⟩, storeA) := by
      rfl
    obtain ⟨s2, hdel, hrec⟩ := c5_name_uniqueness.2 genA inputA store0 _ _ h
    exact ⟨s2, hdel, hrec genB inputA ⟨"endpoint", some "/api"⟩ ⟨1, "1m"⟩ rfl rfl rfl⟩

/-! ## C6 — no range validation of limits -/

def c6Gen : Gen := ⟨"rule_c6", "2026-01-02T00:00:00Z"⟩

def c6Input : RuleInput :=
  { name := some "bad-limit", target := some ⟨"endpoint", some "/x"⟩, limit := some ⟨0, "1m"⟩ }

def c6Store : Store :=
  match createRule c6Gen c6Input store0 with
  | .ok (_, s) => s
  | .error _ => store0

/-- C6 (counterexample to the claim as stated): a rule whose limit has
capacity 0 (`requests := 0`, violating `capacity > 0`) is accepted by
`createRule` and its key is stored. -/
theorem c6_counterexample :
    (createRule c6Gen c6Input store0).isOk = true ∧
    (lookupKey c6Store.ruleHash "rule_c6").isSome = true ∧
    c6Input.limit = some ⟨0, "1m"⟩ :=
  ⟨rfl, rfl, rfl⟩

/-- C6 (amended): `createRule` checks only that name, target and limit are
present (and the name free): any limit payload — including capacity ≤ 0 or a
window outside [1, 86400] — is accepted and stored verbatim, and
`updateRule` succeeds for arbitrary updates whenever the rule exists;
`"Name, target, and limit are required"` is the only definition-shaped
rejection. -/
theorem c6_no_limit_validation :
    (∀ (gen : Gen) (d : RuleInput) (s : Store) (n : String) (t : Target) (l : Limit),
      s.connected = true → d.name = some n → n ≠ "" → d.target = some t → d.limit = some l →
      jsTruthy (lookupKey s.nameIndex n) = false →
      ∃ r s1, createRule gen d s = .ok (r, s1) ∧ r.limit = l ∧
        lookupKey s1.ruleHash gen.ruleId = some r) ∧
    (∀ (gen : Gen) (d : RuleInput) (s : Store),
      s.connected = true →
      (d.name = none ∨ d.name = some "" ∨ d.target = none ∨ d.limit = none) →
      createRule gen d s = .error "Name, target, and limit are required") ∧
    (∀ (nowIso ruleId : String) (u : RuleUpdates) (s : Store) (rule : StoredRule),
      s.connected = true → lookupKey s.ruleHash ruleId = some rule →
      ∃ r1 s1, updateRule nowIso ruleId u s = .ok (r1, s1)) := by
  refine ⟨?_, ?_, ?_⟩
  · intro gen d s n t l hconn hn hne ht hl hfree
    unfold createRule
    rw [if_neg (by rw [hconn]; simp), hn, ht, hl]
    dsimp only
    rw [if_neg hne, if_neg (by rw [hfree]; simp)]
    exact ⟨_, _, rfl, rfl, lookupKey_setKey_self _ _ _⟩
  · intro gen d s hconn hcase
    unfold createRule
    rw [if_neg (by rw [hconn]; simp)]
    rcases hcase with h | h | h | h <;>
      cases hdn : d.name <;> cases hdt : d.target <;> cases hdl : d.limit <;>
        simp_all
  · intro nowIso ruleId u s rule hconn hget
    have hbyid : getRuleById s ruleId = some rule := by
      simp [getRuleById, hconn, hget]
    unfold updateRule
    rw [if_neg (by rw [hconn]; simp), hbyid]
    exact ⟨_, _, rfl⟩

/-- Witness for C6 (amended) at the concrete bad-capacity input. -/
theorem c6_witness :
    (∃ r s1, createRule c6Gen c6Input store0 = .ok (r, s1) ∧ r.limit = ⟨0, "1m"⟩ ∧
      lookupKey s1.ruleHash "rule_c6" = some r) ∧
    (∃ r1 s1, updateRule "2026-01-03T00:00:00Z" "rule_c6" { limit := some ⟨-5, "99d"⟩ }
      c6Store = .ok (r1, s1)) := by
  constructor
  · exact c6_no_limit_validation.1 c6Gen c6Input store0 "bad-limit" ⟨"endpoint", some "/x"⟩
      ⟨0, "1m"⟩ rfl rfl (by decide) rfl rfl rfl
  · exact c6_no_limit_validation.2.2 "2026-01-03T00:00:00Z" "rule_c6"
      { limit := some ⟨-5, "99d"⟩ } c6Store _ (by decide) rfl

/-! ## C7 — target conflicts are reported but not enforced -/

def actor0 : Actor := ⟨"admin", "admin@example.com"⟩

/-- The stored form of `inputA` after `createRule genA inputA store0`. -/
def ruleA : StoredRule :=
  { id := "rule_a", name := "api-limit", target := ⟨"endpoint", some "/api"⟩
    limit := ⟨1, "1m"⟩, action := "reject", priority := 1, enabled := true
    description := "", createdAt := "2026-01-01T00:00:00Z"
    updatedAt := "2026-01-01T00:00:00Z" }

/-- The stored form of `inputB` after `createRule genB inputB storeA`. -/
def ruleB : StoredRule :=
  { id := "rule_b", name := "bulk-limit", target := ⟨"endpoint", some "/api"⟩
    limit := ⟨1000, "1m"⟩, action := "reject", priority := 2, enabled := true
    description := "", createdAt := "2026-01-01T00:00:01Z"
    updatedAt := "2026-01-01T00:00:01Z" }

/-- C7 (counterexample to the claim as stated): `storeA` holds the enabled
rule `ruleA` with target `(endpoint, /api)` — and `checkConflicts` duly
reports it — yet creating a second rule with the identical target through
the service succeeds instead of being rejected. -/
theorem c7_counterexample :
    checkConflicts storeA ⟨"endpoint", some "/api"⟩ =
      [⟨"rule_a", "api-limit", "Identical target pattern"⟩] ∧
    (serviceCreateRule genB inputB actor0 storeA).isOk = true :=
  ⟨rfl, rfl⟩

/-- C7 (amended): `checkConflicts` returns one structured conflict entry
(rule id, rule name, reason `"Identical target pattern"`) for exactly the
enabled rules whose target has the same type and the same pattern as the
candidate; but neither create nor update invokes it — `serviceCreateRule`
succeeds despite an identical enabled target whenever the name is free and
the mandatory fields are present. -/
theorem c7_conflicts_reported_not_enforced :
    (∀ (s : Store) (t : Target) (c : Conflict),
      c ∈ checkConflicts s t ↔ ∃ r ∈ getAllRules s { enabledOnly := true },
        r.target.type = t.type ∧ r.target.pattern = t.pattern ∧
        c = ⟨r.id, r.name, "Identical target pattern"⟩) ∧
    (∀ (gen : Gen) (d : RuleInput) (actor : Actor) (s : Store) (n : String) (t : Target)
        (l : Limit) (r0 : StoredRule),
      s.connected = true → d.name = some n → n ≠ "" → d.target = some t → d.limit = some l →
      lookupKey s.nameIndex n = none →
      r0 ∈ getAllRules s { enabledOnly := true } → r0.target = t →
      ∃ r s1, serviceCreateRule gen d actor s = .ok (r, s1)) := by
  constructor
  · intro s t c
    simp only [checkConflicts, List.mem_map, List.mem_filter, Bool.and_eq_true,
      decide_eq_true_eq]
    constructor
    · rintro ⟨ex, ⟨hmem, hty, hpat⟩, rfl⟩
      exact ⟨ex, hmem, hty, hpat, rfl⟩
    · rintro ⟨ex, hmem, hty, hpat, rfl⟩
      exact ⟨ex, ⟨hmem, hty, hpat⟩, rfl⟩
  · intro gen d actor s n t l r0 hconn hn hne ht hl hfree hmem htgt
    obtain ⟨r, s1, heq⟩ :=
      createRule_ok_of_free gen d s n t l hconn hn hne ht hl (by rw [hfree]; rfl)
    unfold serviceCreateRule
    rw [if_neg (by simp [hn, ht, hl, jsTruthy, hne])]
    have hgbn : getRuleByName s (d.name.getD "") = none := by
      rw [hn]
      simp [getRuleByName, hfree]
    rw [hgbn]
    dsimp only
    rw [heq]
    exact ⟨_, _, rfl⟩

/-- Witness for C7 on the concrete one-rule store. -/
theorem c7_witness :
    ((⟨"rule_a", "api-limit", "Identical target pattern"⟩ : Conflict) ∈
      checkConflicts storeA ⟨"endpoint", some "/api"⟩) ∧
    ∃ r s1, serviceCreateRule genB inputB actor0 storeA = .ok (r, s1) := by
  constructor
  · exact (c7_conflicts_reported_not_enforced.1 storeA ⟨"endpoint", some "/api"⟩ _).mpr
      ⟨ruleA, by decide, by decide, by decide, by decide⟩
  · exact c7_conflicts_reported_not_enforced.2 genB inputB actor0 storeA "bulk-limit"
      ⟨"endpoint", some "/api"⟩ ⟨1000, "1m"⟩ ruleA rfl rfl (by decide) rfl rfl (by decide)
      (by decide) (by decide)

/-! ## C4 — order of the active-rule list -/

/-- C4 (counterexample to the claim as stated): with two enabled rules of
priorities 1 and 2, the list consumed for rule evaluation
(`getActiveRules`, backed by `ZREVRANGE`) lists the priority-2 rule first —
it is not ascending. -/
theorem c4_counterexample :
    getActiveRules storeAB = [ruleB, ruleA] ∧
    ¬ (getActiveRules storeAB).Pairwise (fun r1 r2 => r1.priority ≤ r2.priority) := by
  have hx : getActiveRules storeAB = [ruleB, ruleA] := by decide
  refine ⟨hx, ?_⟩
  rw [hx]
  intro hp
  have h21 := (List.pairwise_cons.mp hp).1 ruleA (by simp)
  simp [ruleA, ruleB] at h21

/-- Helper: `Pairwise` survives a `filterMap` whose outputs inherit the
relation from their sources. -/
theorem pairwise_filterMap_of {α β : Type} {R : α → α → Prop} {S : β → β → Prop}
    (f : α → Option β)
    (H : ∀ a a', R a a' → ∀ b, f a = some b → ∀ b', f a' = some b' → S b b') :
    ∀ {l : List α}, l.Pairwise R → (l.filterMap f).Pairwise S := by
  intro l hl
  rw [List.pairwise_filterMap]
  refine hl.imp ?_
  intro a a' hr b hb b' hb'
  exact H a a' hr b (Option.mem_def.mp hb) b' (Option.mem_def.mp hb')

/-- C4 (amended): provided the priority sorted set agrees with the rule
hashes (each member's score is the stored rule's priority and each member is
the stored rule's id — an invariant `createRule`/`updateRule` maintain),
the active-rule list is sorted by priority *descending*, ties broken by
descending rule id, matching `ZREVRANGE` — not ascending by priority and not
by creation order. -/
theorem c4_priority_descending (s : Store)
    (hcoh : ∀ (rid : String) (score : Int) (r : StoredRule), (rid, score) ∈ s.prioritySet →
      lookupKey s.ruleHash rid = some r → r.priority = score ∧ r.id = rid) :
    (getActiveRules s).Pairwise (fun r1 r2 =>
      r2.priority < r1.priority ∨ (r1.priority = r2.priority ∧ strLe r2.id r1.id = true)) := by
  by_cases hc : s.connected = false
  · simp [getActiveRules, getAllRules, hc]
  · have hsorted : List.Sorted zrevLe (List.insertionSort zrevLe s.prioritySet) :=
      List.sorted_insertionSort zrevLe s.prioritySet
    have hmem : ∀ p ∈ List.insertionSort zrevLe s.prioritySet, p ∈ s.prioritySet :=
      fun p hp => (List.perm_insertionSort zrevLe s.prioritySet).subset hp
    have hP : (List.insertionSort zrevLe s.prioritySet).Pairwise
        (fun a b => ∀ ra rb, lookupKey s.ruleHash a.1 = some ra →
          lookupKey s.ruleHash b.1 = some rb →
          (rb.priority < ra.priority ∨
            (ra.priority = rb.priority ∧ strLe rb.id ra.id = true))) := by
      refine hsorted.imp_of_mem ?_
      intro a b ha hb hab
      intro ra rb hra hrb
      obtain ⟨hpa, hia⟩ := hcoh a.1 a.2 ra (by simpa using hmem a ha) hra
      obtain ⟨hpb, hib⟩ := hcoh b.1 b.2 rb (by simpa using hmem b hb) hrb
      rcases hab with h | ⟨h, h'⟩
      · left
        rw [hpa, hpb]
        exact h
      · right
        rw [hpa, hpb, hia, hib]
        exact ⟨h, h'⟩
    have hPfm : ((List.insertionSort zrevLe s.prioritySet).filterMap
        (fun p => getRuleById s p.1)).Pairwise (fun r1 r2 =>
          r2.priority < r1.priority ∨
            (r1.priority = r2.priority ∧ strLe r2.id r1.id = true)) := by
      refine pairwise_filterMap_of _ ?_ hP
      intro a a' hr b hb b' hb'
      rw [getRuleById, if_neg hc] at hb hb'
      exact hr b b' hb hb'
    have hfinal : getActiveRules s =
        (((List.insertionSort zrevLe s.prioritySet).filterMap
          (fun p => getRuleById s p.1)).filter (·.enabled)) := by
      simp only [getActiveRules, getAllRules, if_neg hc, zrevAll, List.filterMap_map,
        if_true, if_pos trivial]
      rfl
    rw [hfinal]
    exact hPfm.sublist (List.filter_sublist _)

/-- Witness for C4 (amended): the two-rule store satisfies the coherence
hypothesis and its active list is descending. -/
theorem c4_witness :
    (getActiveRules storeAB).Pairwise (fun r1 r2 =>
      r2.priority < r1.priority ∨ (r1.priority = r2.priority ∧ strLe r2.id r1.id = true)) := by
  apply c4_priority_descending
  intro rid score r hmem hlook
  have hps : storeAB.prioritySet = [("rule_a", (1 : Int)), ("rule_b", 2)] := by decide
  rw [hps] at hmem
  simp only [List.mem_cons, List.mem_singleton, Prod.mk.injEq, List.not_mem_nil,
    or_false] at hmem
  rcases hmem with ⟨h1, h2⟩ | ⟨h1, h2⟩ <;> subst h1 <;> subst h2
  · have hl : lookupKey storeAB.ruleHash "rule_a" = some ruleA := by decide
    rw [hl] at hlook
    cases hlook
    exact ⟨by decide, by decide⟩
  · have hl : lookupKey storeAB.ruleHash "rule_b" = some ruleB := by decide
    rw [hl] at hlook
    cases hlook
    exact ⟨by decide, by decide⟩

end Ratetui
